import Mathlib

/-!
Shallow embedding of the ShopHub storefront core: the catalog filter
(`filterProducts` in `App.tsx`), the cart ledger (`useCart.ts`), and the
checkout workflow (`CheckoutModal.tsx`), against the Postgres schema of the
migration file (tables `products`, `cart_items`, `orders`, `order_items`
with their CHECK constraints).

JavaScript strings are embedded as `List Char`; JS numbers holding prices
are embedded as `ℚ` and those holding quantities / stock counts as `ℤ`.
The Supabase client is the Record Store collaborator of the spec: each
store call either succeeds deterministically or fails (network/authorization
failures are injected through explicit `Bool` parameters; CHECK-constraint
violations of the schema fail deterministically).
-/

namespace ShopHub

/-- JS strings, embedded as character lists so that the kernel can
evaluate `toLowerCase` / `includes` / `trim`. -/
abbrev Str := List Char

/-- `a.toLowerCase()` on a JS string. -/
def lowerStr (s : Str) : Str := s.map Char.toLower

/-- Whether `needle` occurs at the start of `hay` (helper for `hasSub`). -/
def startsWith : Str → Str → Bool
  | _, [] => true
  | [], _ :: _ => false
  | c :: cs, n :: ns => c == n && startsWith cs ns

/-- `hay.includes(needle)` on JS strings. -/
def hasSub : Str → Str → Bool
  | [], needle => startsWith [] needle
  | c :: cs, needle => startsWith (c :: cs) needle || hasSub cs needle

/-- `s.trim()` on a JS string: whitespace stripped from both ends. -/
def trimStr (s : Str) : Str :=
  ((s.dropWhile Char.isWhitespace).reverse.dropWhile Char.isWhitespace).reverse

/-- A row of the `products` table joined into the client `Product` type
(`src/lib/supabase.ts`); fields not read by any cart/checkout/filter code
path (images, rating, review count, timestamps) are omitted. -/
structure Product where
  id : String
  name : Str
  description : Option Str
  price : ℚ
  category_id : Option String
  stock_quantity : ℤ
  is_featured : Bool
  is_active : Bool
deriving DecidableEq

/-- The search predicate applied by `filterProducts` in `App.tsx`:
`product.name.toLowerCase().includes(q.toLowerCase()) ||
 product.description?.toLowerCase().includes(q.toLowerCase())`
(an absent description makes the second disjunct `undefined`, hence falsy). -/
def matchesQuery (searchQuery : Str) (p : Product) : Bool :=
  hasSub (lowerStr p.name) (lowerStr searchQuery) ||
    (match p.description with
     | some d => hasSub (lowerStr d) (lowerStr searchQuery)
     | none => false)

/-- `filterProducts` from `App.tsx`: the query filter is applied only when
`searchQuery.trim()` is truthy (non-empty); the category filter only when a
category is selected (`selectedCategory` non-null). -/
def filterProducts (products : List Product) (searchQuery : Str)
    (selectedCategory : Option String) : List Product :=
  let filtered := products
  let filtered :=
    if trimStr searchQuery ≠ [] then filtered.filter (matchesQuery searchQuery)
    else filtered
  match selectedCategory with
  | some c => filtered.filter (fun p => p.category_id == some c)
  | none => filtered

/-- A stored row of `cart_items` (generated id and timestamps omitted; the
schema enforces `UNIQUE(user_id, product_id)` and `CHECK (quantity > 0)`). -/
structure CartRow where
  user_id : String
  product_id : String
  quantity : ℤ
deriving DecidableEq

/-- The client `CartItem` type (`src/lib/supabase.ts`): a cart row joined
with a snapshot of its product, as returned by
`select('*, product:products(*)')`. -/
structure CartItem where
  user_id : String
  product_id : String
  quantity : ℤ
  product : Product
deriving DecidableEq

/-- `orders.status` enumeration of the schema. -/
inductive OrderStatus
  | pending | confirmed | shipped | delivered | cancelled
deriving DecidableEq

/-- `orders.payment_status` enumeration of the schema. -/
inductive PaymentStatus
  | pending | paid | failed | refunded
deriving DecidableEq

/-- The `shipping_address` JSON object written by `handleCheckout`
(the form's email field is collected but not part of this object). -/
structure ShippingAddress where
  fullName : Str
  address : Str
  city : Str
  postalCode : Str
  country : Str
deriving DecidableEq

/-- A stored row of `orders` (timestamps omitted; the generated uuid is
embedded as a `ℕ` fresh for the table). -/
structure OrderRow where
  id : ℕ
  user_id : String
  total_amount : ℚ
  shipping_address : ShippingAddress
  status : OrderStatus
  payment_status : PaymentStatus
deriving DecidableEq

/-- A stored row of `order_items` (generated id and timestamp omitted). -/
structure OrderItemRow where
  order_id : ℕ
  product_id : String
  quantity : ℤ
  price : ℚ
deriving DecidableEq

/-- The Record Store state: the four tables touched by the cart ledger and
the checkout workflow. -/
structure Store where
  products : List Product
  cart_items : List CartRow
  orders : List OrderRow
  order_items : List OrderItemRow
deriving DecidableEq

/-- `select` of the product row with identifier `pid`. -/
def Store.findProduct (st : Store) (pid : String) : Option Product :=
  st.products.find? (fun p => p.id == pid)

/-- The stock currently stored for product `pid` (none if no such row). -/
def Store.stockOf (st : Store) (pid : String) : Option ℤ :=
  (st.findProduct pid).map Product.stock_quantity

/-- `update products set stock_quantity = v where id = pid`, applied to the
table's row list. -/
def setStockList (ps : List Product) (pid : String) (v : ℤ) : List Product :=
  ps.map (fun p => if p.id == pid then { p with stock_quantity := v } else p)

/-- The Record Store's `upsert` on `cart_items` (spec interface contract),
keyed on the schema's `UNIQUE(user_id, product_id)`: on conflict the
non-key field `quantity` is overwritten, otherwise the row is inserted. -/
def upsertCartRow (rows : List CartRow) (uid pid : String) (q : ℤ) :
    List CartRow :=
  if rows.any (fun r => r.user_id == uid && r.product_id == pid) then
    rows.map (fun r =>
      if r.user_id == uid && r.product_id == pid then { r with quantity := q }
      else r)
  else rows ++ [⟨uid, pid, q⟩]

/-- The local-state update block of `addToCart`: `findIndex` the entry for
the product; if present, replace it at its index with the store-returned
row, otherwise append the returned row. -/
def addLocal (cartItems : List CartItem) (productId : String)
    (data : CartItem) : List CartItem :=
  match cartItems.findIdx? (fun item => item.product_id == productId) with
  | some i => cartItems.set i data
  | none => cartItems ++ [data]

/-- `fetchCartItems` from `useCart.ts`: load the identity's cart rows joined
with their products; returns early (local state kept) when no user is
signed in, and catches a store error leaving local state unchanged. -/
def fetchCartItems (user : Option String) (fail : Bool) (st : Store)
    (cartItems : List CartItem) : List CartItem :=
  match user with
  | none => cartItems
  | some uid =>
    if fail then cartItems
    else
      (st.cart_items.filter (fun r => r.user_id == uid)).filterMap
        (fun r => (st.findProduct r.product_id).map
          (fun p => ⟨r.user_id, r.product_id, r.quantity, p⟩))

/-- `addToCart` from `useCart.ts`. The store call is
`upsert({user_id, product_id, quantity}).select('*, product:products(*)').single()`;
a rejected call (injected failure, `CHECK (quantity > 0)` violation, or a
product reference that resolves to no row) is caught, leaving both the
store and the local state unchanged. On success the local entry for the
product is replaced at its index if present, else the returned row is
appended. -/
def addToCart (user : Option String) (fail : Bool) (st : Store)
    (cartItems : List CartItem) (productId : String) (quantity : ℤ) :
    Store × List CartItem :=
  match user with
  | none => (st, cartItems)
  | some uid =>
    if fail then (st, cartItems)
    else if quantity ≤ 0 then (st, cartItems)
    else
      match st.findProduct productId with
      | none => (st, cartItems)
      | some prod =>
        let data : CartItem := ⟨uid, productId, quantity, prod⟩
        let st' : Store :=
          { st with cart_items := upsertCartRow st.cart_items uid productId quantity }
        (st', addLocal cartItems productId data)

/-- `removeFromCart` from `useCart.ts`: delete the (user, product) row and
drop the matching local entries; errors are caught with state unchanged. -/
def removeFromCart (user : Option String) (fail : Bool) (st : Store)
    (cartItems : List CartItem) (productId : String) :
    Store × List CartItem :=
  match user with
  | none => (st, cartItems)
  | some uid =>
    if fail then (st, cartItems)
    else
      let rows := st.cart_items.filter
        (fun r => !(r.user_id == uid && r.product_id == productId))
      ({ st with cart_items := rows },
       cartItems.filter (fun item => !(item.product_id == productId)))

/-- `updateQuantity` from `useCart.ts`: a non-positive quantity delegates to
`removeFromCart`; otherwise `update cart_items set quantity where
user_id, product_id` followed by a joined `.single()` read. A call matching
no row persists nothing and the `.single()` error is caught; on success
every local entry for the product is replaced by the returned row. -/
def updateQuantity (user : Option String) (fail : Bool) (st : Store)
    (cartItems : List CartItem) (productId : String) (quantity : ℤ) :
    Store × List CartItem :=
  match user with
  | none => (st, cartItems)
  | some uid =>
    if quantity ≤ 0 then removeFromCart user fail st cartItems productId
    else if fail then (st, cartItems)
    else if !(st.cart_items.any (fun r => r.user_id == uid && r.product_id == productId)) then
      (st, cartItems)
    else
      let st' : Store :=
        { st with cart_items := st.cart_items.map (fun r =>
            if r.user_id == uid && r.product_id == productId then
              { r with quantity := quantity }
            else r) }
      match st.findProduct productId with
      | none => (st', cartItems)
      | some prod =>
        let data : CartItem := ⟨uid, productId, quantity, prod⟩
        (st', cartItems.map (fun item =>
          if item.product_id == productId then data else item))

/-- `clearCart` from `useCart.ts`: delete all of the identity's cart rows
and empty the local state; errors are caught with state unchanged. -/
def clearCart (user : Option String) (fail : Bool) (st : Store)
    (cartItems : List CartItem) : Store × List CartItem :=
  match user with
  | none => (st, cartItems)
  | some uid =>
    if fail then (st, cartItems)
    else
      ({ st with cart_items := st.cart_items.filter (fun r => !(r.user_id == uid)) },
       [])

/-- `cartTotal` from `useCart.ts`: reduce over the local entries of
`price * quantity` starting from 0. -/
def cartTotal (cartItems : List CartItem) : ℚ :=
  cartItems.foldl (fun total item => total + item.product.price * (item.quantity : ℚ)) 0

/-- `cartCount` from `useCart.ts`. -/
def cartCount (cartItems : List CartItem) : ℤ :=
  cartItems.foldl (fun total item => total + item.quantity) 0

/-- The validated shipping form data handed to `handleCheckout`. -/
structure CheckoutForm where
  fullName : Str
  email : Str
  address : Str
  city : Str
  postalCode : Str
  country : Str

/-- Injected Record Store failures for one checkout run: step 1 (order
insert), step 2 (order-items batch insert), step 3 (the i-th stock update),
and step 4 (the cart delete issued by `clearCart`). -/
structure FailSpec where
  orderFail : Bool
  itemsFail : Bool
  stockFail : ℕ → Bool
  clearFail : Bool

/-- A run in which the store rejects no call. -/
def noFail : FailSpec := ⟨false, false, fun _ => false, false⟩

/-- Outcome of one `handleCheckout` run: the store, the local cart, and
whether the success toast (rather than `CheckoutFailed`) was shown. -/
structure CheckoutResult where
  store : Store
  cartItems : List CartItem
  ok : Bool
deriving DecidableEq

/-- Step 3 of `handleCheckout`: for each cart entry in order,
`update products set stock_quantity = (snapshot stock - quantity) where id =
product_id`, using the client-held snapshot. An update matching a row whose
new value violates `CHECK (stock_quantity >= 0)` is rejected by the schema;
an update matching no row writes nothing and succeeds. The loop throws on
the first rejected write, keeping the earlier writes. -/
def stockLoop (f : ℕ → Bool) : List CartItem → ℕ → Store → Bool × Store
  | [], _, st => (true, st)
  | item :: rest, i, st =>
    if f i then (false, st)
    else
      let newStock := item.product.stock_quantity - item.quantity
      if (st.products.any (fun p => p.id == item.product_id)) ∧ newStock < 0 then
        (false, st)
      else
        stockLoop f rest (i + 1)
          { st with products := setStockList st.products item.product_id newStock }

/-- `handleCheckout` from `CheckoutModal.tsx`. Steps: guard on identity;
insert one `orders` row (total = `cartTotal`, status confirmed, payment
paid; `CHECK (total_amount >= 0)`); batch-insert one `order_items` row per
cart entry carrying the snapshot price and the entry quantity
(`CHECK (quantity > 0)`, `CHECK (price >= 0)`); decrement each product's
stock from the snapshot; finally `clearCart`, whose own failure is caught
inside `clearCart` and therefore does not revoke the success toast. Any
failure of steps 1–3 is caught by the surrounding try/catch
(`CheckoutFailed` toast) keeping whatever was already persisted. -/
def handleCheckout (user : Option String) (fs : FailSpec) (st : Store)
    (cartItems : List CartItem) (form : CheckoutForm) : CheckoutResult :=
  match user with
  | none => ⟨st, cartItems, false⟩
  | some uid =>
    if fs.orderFail ∨ cartTotal cartItems < 0 then ⟨st, cartItems, false⟩
    else
      let order : OrderRow :=
        { id := st.orders.length, user_id := uid,
          total_amount := cartTotal cartItems,
          shipping_address :=
            ⟨form.fullName, form.address, form.city, form.postalCode, form.country⟩,
          status := .confirmed, payment_status := .paid }
      let st1 : Store := { st with orders := st.orders ++ [order] }
      if fs.itemsFail ∨ (∃ item ∈ cartItems, item.quantity ≤ 0 ∨ item.product.price < 0) then
        ⟨st1, cartItems, false⟩
      else
        let newLines := cartItems.map
          (fun item => OrderItemRow.mk order.id item.product_id item.quantity item.product.price)
        let st2 : Store := { st1 with order_items := st1.order_items ++ newLines }
        match stockLoop fs.stockFail cartItems 0 st2 with
        | (false, stErr) => ⟨stErr, cartItems, false⟩
        | (true, st3) =>
          let cleared := clearCart (some uid) fs.clearFail st3 cartItems
          ⟨cleared.1, cleared.2, true⟩

/-- The catalog-price change of the spec's data-model invariant.
Modelled from the spec: the admin product-management UI that edits catalog
prices is not part of this repository's client source; §6's
`update(table, patch, filter)` contract applied to `products.price`. -/
def updateProductPrice (st : Store) (pid : String) (newPrice : ℚ) : Store :=
  { st with products := st.products.map (fun p =>
      if p.id == pid then { p with price := newPrice } else p) }

/-- Sum over order lines of price × quantity (the spec's Order invariant). -/
def lineSum (lines : List OrderItemRow) : ℚ :=
  lines.foldl (fun total r => total + r.price * (r.quantity : ℚ)) 0

/-! Concrete sample data for witness and counterexample theorems. -/

/-- Sample catalog product 1. -/
def sampleP1 : Product := ⟨"p1", "Running Shoes".data, none, 3, none, 5, false, true⟩

/-- Sample catalog product 2. -/
def sampleP2 : Product :=
  ⟨"p2", "Designer T-Shirt".data, some "soft cotton".data, 7, some "c1", 4, false, true⟩

/-- Sample cart entry: 2 units of product 1 for user u1. -/
def sampleI1 : CartItem := ⟨"u1", "p1", 2, sampleP1⟩

/-- Sample cart entry: 1 unit of product 2 for user u1. -/
def sampleI2 : CartItem := ⟨"u1", "p2", 1, sampleP2⟩

/-- Sample store holding both products and u1's two cart rows. -/
def sampleStore : Store :=
  ⟨[sampleP1, sampleP2], [⟨"u1", "p1", 2⟩, ⟨"u1", "p2", 1⟩], [], []⟩

/-- Sample validated shipping form. -/
def sampleForm : CheckoutForm :=
  ⟨"Jo Doe".data, "jo@x.io".data, "1 Way".data, "Town".data, "0000".data, "NL".data⟩

/-- A product whose name and (absent) description do not contain a space. -/
def productX : Product := ⟨"x1", "X".data, none, 5, none, 3, false, true⟩

/-- A product with a single unit in stock. -/
def lowStockP : Product := ⟨"q1", "Last Unit".data, none, 5, none, 1, false, true⟩

/-- A cart entry asking for 2 units of the one-unit product. -/
def lowStockItem : CartItem := ⟨"u1", "q1", 2, lowStockP⟩

/-- Store for the insufficient-stock run. -/
def lowStockStore : Store := ⟨[lowStockP], [⟨"u1", "q1", 2⟩], [], []⟩

/-- Two successive `addToCart` calls for the same product with succeeding
store calls (the double-add scenario of the spec's testable properties). -/
def addTwice (uid : String) (st : Store) (cartItems : List CartItem)
    (pid : String) (q1 q2 : ℤ) : Store × List CartItem :=
  let s1 := addToCart (some uid) false st cartItems pid q1
  addToCart (some uid) false s1.1 s1.2 pid q2

/-! ## Theorems -/

/-- `Store.findProduct` only reads the products table, so cart-row writes
do not change it. -/
theorem findProduct_set_cart (st : Store) (rows : List CartRow)
    (pid : String) :
    Store.findProduct { st with cart_items := rows } pid =
      st.findProduct pid := rfl

/-- Unfolding `addLocal` over a cons cell. -/
theorem addLocal_cons (x : CartItem) (xs : List CartItem) (pid : String)
    (data : CartItem) :
    addLocal (x :: xs) pid data =
      if x.product_id == pid then data :: xs
      else x :: addLocal xs pid data := by
  unfold addLocal
  by_cases hx : (x.product_id == pid) = true
  · simp [List.findIdx?_cons, hx]
  · simp only [List.findIdx?_cons, hx, if_false, Bool.false_eq_true]
    rw [List.findIdx?_start_succ]
    cases hfi : xs.findIdx? (fun item => item.product_id == pid) with
    | none => simp [hfi, hx]
    | some i => simp [hfi, hx]

/-- After `addLocal` with a row for the product, a duplicate-free cart has
exactly one entry for the product. -/
theorem countP_addLocal (l : List CartItem) (pid : String) (data : CartItem)
    (hdata : (data.product_id == pid) = true)
    (hu : l.countP (fun item => item.product_id == pid) ≤ 1) :
    (addLocal l pid data).countP (fun item => item.product_id == pid) = 1 := by
  induction l with
  | nil => simp [addLocal, hdata]
  | cons x xs ih =>
    rw [addLocal_cons]
    by_cases hx : (x.product_id == pid) = true
    · rw [if_pos hx]
      simp only [List.countP_cons, hx, ite_true, if_true] at hu
      have h0 : xs.countP (fun item => item.product_id == pid) = 0 := by omega
      simp [List.countP_cons, hdata, h0]
    · rw [if_neg hx]
      simp only [List.countP_cons, hx, ite_false, if_false] at hu
      simp only [List.countP_cons, hx, ite_false, if_false]
      simpa using ih (by omega)

/-- After `addLocal` on a duplicate-free cart, every entry for the product
is the store-returned row. -/
theorem mem_addLocal_eq (l : List CartItem) (pid : String) (data : CartItem)
    (hu : l.countP (fun item => item.product_id == pid) ≤ 1) :
    ∀ item ∈ addLocal l pid data,
      (item.product_id == pid) = true → item = data := by
  induction l with
  | nil =>
    intro item hm _
    simpa [addLocal] using hm
  | cons x xs ih =>
    rw [addLocal_cons]
    by_cases hx : (x.product_id == pid) = true
    · rw [if_pos hx]
      intro item hm hp
      rcases List.mem_cons.mp hm with h | h
      · exact h
      · exfalso
        simp only [List.countP_cons, hx, ite_true, if_true] at hu
        have h0 : xs.countP (fun item => item.product_id == pid) = 0 := by omega
        exact (List.countP_eq_zero.mp h0 item h) hp
    · rw [if_neg hx]
      intro item hm hp
      rcases List.mem_cons.mp hm with h | h
      · exact absurd (h ▸ hp) hx
      · simp only [List.countP_cons, hx, ite_false, if_false] at hu
        exact ih (by omega) item h hp

/-- The store upsert keyed on (user, product) leaves exactly one row for
the key when the table held at most one. -/
theorem countP_upsertCartRow (rows : List CartRow) (uid pid : String) (q : ℤ)
    (hu : rows.countP (fun r => r.user_id == uid && r.product_id == pid) ≤ 1) :
    (upsertCartRow rows uid pid q).countP
      (fun r => r.user_id == uid && r.product_id == pid) = 1 := by
  unfold upsertCartRow
  by_cases hany : rows.any (fun r => r.user_id == uid && r.product_id == pid) = true
  · rw [if_pos hany]
    have hmap : (rows.map (fun r =>
        if r.user_id == uid && r.product_id == pid then { r with quantity := q }
        else r)).countP (fun r => r.user_id == uid && r.product_id == pid) =
        rows.countP (fun r => r.user_id == uid && r.product_id == pid) := by
      rw [List.countP_map]
      refine List.countP_congr (fun r _ => ?_)
      by_cases hr : (r.user_id == uid && r.product_id == pid) = true
      · simp [Function.comp, hr]
      · simp [Function.comp, hr]
    rw [hmap]
    have hpos : 0 < rows.countP (fun r => r.user_id == uid && r.product_id == pid) := by
      rcases List.any_eq_true.mp hany with ⟨r, hr, hpr⟩
      exact List.countP_pos_iff.mpr ⟨r, hr, hpr⟩
    omega
  · rw [if_neg hany]
    have h0 : rows.countP (fun r => r.user_id == uid && r.product_id == pid) = 0 := by
      refine List.countP_eq_zero.mpr (fun r hr => ?_)
      intro hpr
      exact hany (List.any_eq_true.mpr ⟨r, hr, hpr⟩)
    simp [List.countP_append, h0]

/-- After the upsert, every row for the (user, product) key carries the
upserted quantity. -/
theorem upsertCartRow_quantity (rows : List CartRow) (uid pid : String)
    (q : ℤ) :
    ∀ r ∈ upsertCartRow rows uid pid q,
      (r.user_id == uid && r.product_id == pid) = true → r.quantity = q := by
  unfold upsertCartRow
  by_cases hany : rows.any (fun r => r.user_id == uid && r.product_id == pid) = true
  · rw [if_pos hany]
    intro r hm hp
    rcases List.mem_map.mp hm with ⟨r0, _, hr0⟩
    by_cases hpr0 : (r0.user_id == uid && r0.product_id == pid) = true
    · rw [if_pos hpr0] at hr0
      rw [← hr0]
    · rw [if_neg (by simp [hpr0])] at hr0
      exact absurd (hr0 ▸ hp) (by simp [hpr0])
  · rw [if_neg hany]
    intro r hm hp
    rcases List.mem_append.mp hm with h | h
    · exact absurd hp (by
        intro hpr
        exact hany (List.any_eq_true.mpr ⟨r, h, hpr⟩))
    · rcases List.mem_singleton.mp h with rfl
      rfl


/-- C9 (amended): `filterProducts` keeps exactly those products passing the
case-insensitive name/description substring test — a test that is skipped
entirely (all products pass) when the query is empty **or whitespace-only** —
intersected with category-id equality when a category is selected, in a
single order-preserving filter pass; with an empty query and no category it
returns all products unchanged (identity). -/
theorem filterProducts_characterization (products : List Product) (q : Str)
    (cat : Option String) :
    filterProducts products q cat =
      products.filter (fun p =>
        (trimStr q == [] || matchesQuery q p) &&
        (match cat with
         | some c => p.category_id == some c
         | none => true)) ∧
    filterProducts products [] none = products := by
  constructor
  · unfold filterProducts
    by_cases h : trimStr q = []
    · cases cat with
      | none => simp [h]
      | some c => simp [h]
    · have hb : (trimStr q == []) = false := by
        simp only [beq_eq_false_iff_ne, ne_eq]
        exact h
      cases cat with
      | none => simp [h, hb]
      | some c =>
        simp only [h, ne_eq, not_false_iff, if_true, ite_true, if_pos]
        rw [List.filter_filter]
        refine List.filter_congr (fun a _ => ?_)
        rw [hb, Bool.false_or, Bool.and_comm]
  · simp [filterProducts, trimStr]

/-- C9 counterexample: on the whitespace-only query `" "` the code keeps a
product whose name and description do not contain `" "`, so the claim's
universally-quantified "keeps exactly those products whose name or
description contains the query" is false as stated. -/
theorem filterProducts_whitespace_counterexample :
    filterProducts [productX] [' '] none = [productX] ∧
    matchesQuery [' '] productX = false := by
  exact ⟨by decide, by decide⟩

/-- C7: `updateQuantity` with a non-positive quantity delegates to
`removeFromCart`: for every identity, store-failure behaviour, store state,
local cart and product the two calls return identical store and local
states; in particular `setQuantity(productId, 0)` equals
`remove(productId)`. -/
theorem updateQuantity_nonpos_eq_remove (user : Option String) (fail : Bool)
    (st : Store) (cartItems : List CartItem) (productId : String)
    (quantity : ℤ) (hq : quantity ≤ 0) :
    updateQuantity user fail st cartItems productId quantity =
      removeFromCart user fail st cartItems productId := by
  cases user with
  | none => rfl
  | some uid => simp [updateQuantity, hq]

/-- C7 witness: quantity 0 at concrete inputs. -/
theorem updateQuantity_nonpos_eq_remove_witness :
    (0 : ℤ) ≤ 0 ∧
    updateQuantity (some "u1") false sampleStore [sampleI1] "p1" 0 =
      removeFromCart (some "u1") false sampleStore [sampleI1] "p1" :=
  ⟨by decide,
   updateQuantity_nonpos_eq_remove (some "u1") false sampleStore [sampleI1]
     "p1" 0 (by decide)⟩

/-- C8: when the Record Store reports an error, every cart-ledger operation
(load, add, setQuantity, remove, clear) catches it locally — each returns a
state instead of propagating — and leaves the prior local cart state (and
the store) unchanged: no partial or optimistic local mutation is
committed. -/
theorem cart_ops_store_error_frame (user : Option String) (st : Store)
    (cartItems : List CartItem) (productId : String) (quantity : ℤ) :
    fetchCartItems user true st cartItems = cartItems ∧
    addToCart user true st cartItems productId quantity = (st, cartItems) ∧
    updateQuantity user true st cartItems productId quantity = (st, cartItems) ∧
    removeFromCart user true st cartItems productId = (st, cartItems) ∧
    clearCart user true st cartItems = (st, cartItems) := by
  cases user with
  | none => exact ⟨rfl, rfl, rfl, rfl, rfl⟩
  | some uid =>
    refine ⟨rfl, rfl, ?_, rfl, rfl⟩
    by_cases hq : quantity ≤ 0
    · simp [updateQuantity, removeFromCart, hq]
    · simp [updateQuantity, hq]

/-- C4: calling add twice for the same product with two distinct positive
quantities (both store calls succeeding) leaves exactly one cart row for
the (identity, product) pair in the store and exactly one local entry for
the product, and both carry the second quantity — an overwrite, not a
sum. -/
theorem add_twice_overwrites (uid : String) (st : Store)
    (cartItems : List CartItem) (pid : String) (q1 q2 : ℤ)
    (hne : q1 ≠ q2) (h1 : 0 < q1) (h2 : 0 < q2)
    (hprod : (st.findProduct pid).isSome = true)
    (hstore : st.cart_items.countP
      (fun r => r.user_id == uid && r.product_id == pid) ≤ 1)
    (hlocal : cartItems.countP (fun item => item.product_id == pid) ≤ 1) :
    ((addTwice uid st cartItems pid q1 q2).1.cart_items.countP
        (fun r => r.user_id == uid && r.product_id == pid) = 1 ∧
      ∀ r ∈ (addTwice uid st cartItems pid q1 q2).1.cart_items,
        (r.user_id == uid && r.product_id == pid) = true → r.quantity = q2) ∧
    ((addTwice uid st cartItems pid q1 q2).2.countP
        (fun item => item.product_id == pid) = 1 ∧
      ∀ item ∈ (addTwice uid st cartItems pid q1 q2).2,
        (item.product_id == pid) = true → item.quantity = q2) := by
  obtain ⟨prod, hp⟩ := Option.isSome_iff_exists.mp hprod
  have hq1 : ¬ (q1 ≤ 0) := by omega
  have hq2 : ¬ (q2 ≤ 0) := by omega
  have h1eq : addToCart (some uid) false st cartItems pid q1 =
      ({ st with cart_items := upsertCartRow st.cart_items uid pid q1 },
       addLocal cartItems pid ⟨uid, pid, q1, prod⟩) := by
    simp [addToCart, hq1, hp]
  have hp2 : Store.findProduct
      { st with cart_items := upsertCartRow st.cart_items uid pid q1 } pid =
      some prod := by
    rw [findProduct_set_cart]
    exact hp
  have h2eq : addToCart (some uid) false
      { st with cart_items := upsertCartRow st.cart_items uid pid q1 }
      (addLocal cartItems pid ⟨uid, pid, q1, prod⟩) pid q2 =
      ({ st with cart_items :=
           upsertCartRow (upsertCartRow st.cart_items uid pid q1) uid pid q2 },
       addLocal (addLocal cartItems pid ⟨uid, pid, q1, prod⟩) pid
         ⟨uid, pid, q2, prod⟩) := by
    simp [addToCart, hq2, hp2]
  have hres : addTwice uid st cartItems pid q1 q2 =
      ({ st with cart_items :=
           upsertCartRow (upsertCartRow st.cart_items uid pid q1) uid pid q2 },
       addLocal (addLocal cartItems pid ⟨uid, pid, q1, prod⟩) pid
         ⟨uid, pid, q2, prod⟩) := by
    rw [addTwice, h1eq]
    exact h2eq
  rw [hres]
  have hstore1 : (upsertCartRow st.cart_items uid pid q1).countP
      (fun r => r.user_id == uid && r.product_id == pid) ≤ 1 :=
    le_of_eq (countP_upsertCartRow st.cart_items uid pid q1 hstore)
  have hlocal1 : (addLocal cartItems pid ⟨uid, pid, q1, prod⟩).countP
      (fun item => item.product_id == pid) ≤ 1 :=
    le_of_eq (countP_addLocal cartItems pid ⟨uid, pid, q1, prod⟩ (by simp) hlocal)
  refine ⟨⟨countP_upsertCartRow _ uid pid q2 hstore1,
          upsertCartRow_quantity _ uid pid q2⟩,
         ⟨countP_addLocal _ pid ⟨uid, pid, q2, prod⟩ (by simp) hlocal1, ?_⟩⟩
  intro item hm hpi
  have := mem_addLocal_eq _ pid ⟨uid, pid, q2, prod⟩ hlocal1 item hm hpi
  rw [this]

/-- C4 witness: add product p1 with quantity 2 and then 5 at the sample
store. -/
theorem add_twice_overwrites_witness :
    ((2 : ℤ) ≠ 5 ∧ (0 : ℤ) < 2 ∧ (0 : ℤ) < 5 ∧
      (sampleStore.findProduct "p1").isSome = true ∧
      sampleStore.cart_items.countP
        (fun r => r.user_id == "u1" && r.product_id == "p1") ≤ 1 ∧
      [sampleI1, sampleI2].countP (fun item => item.product_id == "p1") ≤ 1) ∧
    (((addTwice "u1" sampleStore [sampleI1, sampleI2] "p1" 2 5).1.cart_items.countP
        (fun r => r.user_id == "u1" && r.product_id == "p1") = 1 ∧
      ∀ r ∈ (addTwice "u1" sampleStore [sampleI1, sampleI2] "p1" 2 5).1.cart_items,
        (r.user_id == "u1" && r.product_id == "p1") = true → r.quantity = 5) ∧
    ((addTwice "u1" sampleStore [sampleI1, sampleI2] "p1" 2 5).2.countP
        (fun item => item.product_id == "p1") = 1 ∧
      ∀ item ∈ (addTwice "u1" sampleStore [sampleI1, sampleI2] "p1" 2 5).2,
        (item.product_id == "p1") = true → item.quantity = 5)) :=
  ⟨⟨by decide, by decide, by decide, by decide, by decide, by decide⟩,
   add_twice_overwrites "u1" sampleStore [sampleI1, sampleI2] "p1" 2 5
     (by decide) (by decide) (by decide) (by decide) (by decide) (by decide)⟩

/-- The first index with a property, on a list holding at most one element
with the property, is any index holding such an element. -/
theorem findIdx?_eq_some_of_unique {α : Type} (p : α → Bool) (l : List α)
    (hu : l.countP p ≤ 1) (i : ℕ) (x : α) (hx : l[i]? = some x)
    (hpx : p x = true) : l.findIdx? p = some i := by
  induction l generalizing i with
  | nil => simp at hx
  | cons y ys ih =>
    cases i with
    | zero =>
      simp only [List.getElem?_cons_zero, Option.some.injEq] at hx
      subst hx
      simp [List.findIdx?_cons, hpx]
    | succ k =>
      simp only [List.getElem?_cons_succ] at hx
      have hmem : x ∈ ys := List.getElem?_mem hx
      have hpos : 0 < ys.countP p := List.countP_pos_iff.mpr ⟨x, hmem, hpx⟩
      have hy : p y = false := by
        rcases Bool.eq_false_or_eq_true (p y) with h | h
        · exfalso
          simp only [List.countP_cons, h, ite_true, if_true] at hu
          omega
        · exact h
      have hu2 : ys.countP p ≤ 1 := by
        simp [List.countP_cons, hy] at hu
        omega
      simp only [List.findIdx?_cons, hy, Bool.false_eq_true, ite_false, if_false]
      rw [List.findIdx?_start_succ, ih hu2 k hx]
      rfl

/-- C10: after a successful `addToCart`, the local cart is changed in
exactly one way: if no entry for the product existed, the store-returned
row is appended at the end; if one existed at position i (entries for a
product being unique), the returned row replaces it at position i, the
length is unchanged, and every other position holds exactly its previous
entry — the cart is never reordered. -/
theorem addToCart_local_frame (uid : String) (st : Store)
    (cartItems : List CartItem) (pid : String) (q : ℤ) (prod : Product)
    (hq : 0 < q) (hp : st.findProduct pid = some prod) :
    ((∀ item ∈ cartItems, (item.product_id == pid) = false) →
      (addToCart (some uid) false st cartItems pid q).2 =
        cartItems ++ [⟨uid, pid, q, prod⟩]) ∧
    (∀ (i : ℕ) (x : CartItem), cartItems[i]? = some x → (x.product_id == pid) = true →
      cartItems.countP (fun item => item.product_id == pid) ≤ 1 →
      ((addToCart (some uid) false st cartItems pid q).2.length =
          cartItems.length ∧
        (addToCart (some uid) false st cartItems pid q).2[i]? =
          some ⟨uid, pid, q, prod⟩ ∧
        ∀ j, j ≠ i →
          (addToCart (some uid) false st cartItems pid q).2[j]? =
            cartItems[j]?)) := by
  have hq0 : ¬ (q ≤ 0) := by omega
  have heq : (addToCart (some uid) false st cartItems pid q).2 =
      addLocal cartItems pid ⟨uid, pid, q, prod⟩ := by
    simp [addToCart, hq0, hp]
  rw [heq]
  constructor
  · intro hnone
    have hfi : cartItems.findIdx? (fun item => item.product_id == pid) = none :=
      List.findIdx?_eq_none_iff.mpr hnone
    simp [addLocal, hfi]
  · intro i x hx hpx hu
    have hfi : cartItems.findIdx? (fun item => item.product_id == pid) = some i :=
      findIdx?_eq_some_of_unique _ cartItems hu i x hx hpx
    have hset : addLocal cartItems pid ⟨uid, pid, q, prod⟩ =
        cartItems.set i ⟨uid, pid, q, prod⟩ := by
      simp [addLocal, hfi]
    rw [hset]
    have hilen : i < cartItems.length := by
      rcases List.getElem?_eq_some_iff.mp hx with ⟨h, _⟩
      exact h
    refine ⟨List.length_set cartItems i _, ?_, ?_⟩
    · simp [List.getElem?_set_self hilen]
    · intro j hj
      exact List.getElem?_set_ne (Ne.symm hj)

/-- C10 witness: replacing product p1 (present at index 0) in the sample
cart with quantity 7. -/
theorem addToCart_local_frame_witness :
    ((0 : ℤ) < 7 ∧ sampleStore.findProduct "p1" = some sampleP1) ∧
    ((∀ item ∈ [sampleI1, sampleI2], (item.product_id == "p1") = false) →
      (addToCart (some "u1") false sampleStore [sampleI1, sampleI2] "p1" 7).2 =
        [sampleI1, sampleI2] ++ [⟨"u1", "p1", 7, sampleP1⟩]) ∧
    (∀ (i : ℕ) (x : CartItem), [sampleI1, sampleI2][i]? = some x → (x.product_id == "p1") = true →
      [sampleI1, sampleI2].countP (fun item => item.product_id == "p1") ≤ 1 →
      ((addToCart (some "u1") false sampleStore [sampleI1, sampleI2] "p1" 7).2.length =
          [sampleI1, sampleI2].length ∧
        (addToCart (some "u1") false sampleStore [sampleI1, sampleI2] "p1" 7).2[i]? =
          some ⟨"u1", "p1", 7, sampleP1⟩ ∧
        ∀ j, j ≠ i →
          (addToCart (some "u1") false sampleStore [sampleI1, sampleI2] "p1" 7).2[j]? =
            [sampleI1, sampleI2][j]?)) :=
  ⟨⟨by decide, by decide⟩,
   addToCart_local_frame "u1" sampleStore [sampleI1, sampleI2] "p1" 7 sampleP1
     (by decide) (by decide)⟩

/-- `find?` by id after a stock write: the found row is the written row. -/
theorem find?_setStockList (ps : List Product) (pid pid2 : String) (v : ℤ) :
    (setStockList ps pid v).find? (fun p => p.id == pid2) =
      (ps.find? (fun p => p.id == pid2)).map
        (fun p => if p.id == pid then { p with stock_quantity := v } else p) := by
  unfold setStockList
  rw [List.find?_map]
  have hfun : ((fun p : Product => p.id == pid2) ∘ fun p : Product =>
      if p.id == pid then { p with stock_quantity := v } else p) =
      (fun p : Product => p.id == pid2) := by
    funext p
    by_cases h : (p.id == pid) = true
    · simp [Function.comp, h]
    · simp [Function.comp, h]
  rw [hfun]

/-- The stock stored for a different product is unchanged by a stock
write. -/
theorem stock_after_set_ne (ps : List Product) (pid pid2 : String) (v : ℤ)
    (hne : pid2 ≠ pid) :
    ((setStockList ps pid v).find? (fun p => p.id == pid2)).map
        Product.stock_quantity =
      (ps.find? (fun p => p.id == pid2)).map Product.stock_quantity := by
  rw [find?_setStockList]
  cases h : ps.find? (fun p => p.id == pid2) with
  | none => rfl
  | some p =>
    have hp := List.find?_some h
    have hnp : ¬ ((p.id == pid) = true) := by
      intro hpd
      refine hne ?_
      have e1 : p.id = pid2 := by simpa using hp
      have e2 : p.id = pid := by simpa using hpd
      rw [← e1, e2]
    have hnp2 : ¬ (p.id = pid) := by simpa using hnp
    simp [hnp2]

/-- The stock stored for the written product becomes the written value
whenever the row exists. -/
theorem stock_after_set_self (ps : List Product) (pid : String) (v : ℤ) :
    ((setStockList ps pid v).find? (fun p => p.id == pid)).map
        Product.stock_quantity =
      (ps.find? (fun p => p.id == pid)).map (fun _ => v) := by
  rw [find?_setStockList]
  cases h : ps.find? (fun p => p.id == pid) with
  | none => rfl
  | some p =>
    have hp : p.id = pid := by simpa using List.find?_some h
    simp [hp]

/-- Step 3 of checkout writes only the products table. -/
theorem stockLoop_order_items (f : ℕ → Bool) (items : List CartItem) (i : ℕ)
    (st : Store) :
    (stockLoop f items i st).2.order_items = st.order_items := by
  induction items generalizing i st with
  | nil => rfl
  | cons item rest ih =>
    simp only [stockLoop]
    split
    · rfl
    · split
      · rfl
      · exact ih (i + 1) _

/-- `clearCart` writes only the cart table. -/
theorem clearCart_order_items (user : Option String) (b : Bool) (st : Store)
    (l : List CartItem) :
    (clearCart user b st l).1.order_items = st.order_items := by
  cases user <;> cases b <;> rfl

/-- Auxiliary: the cart-total fold stays non-negative from a non-negative
accumulator when every entry has positive quantity and non-negative
price. -/
theorem foldl_total_nonneg (items : List CartItem) :
    ∀ acc : ℚ, 0 ≤ acc →
      (∀ item ∈ items, 0 < item.quantity ∧ 0 ≤ item.product.price) →
      0 ≤ items.foldl
        (fun total item => total + item.product.price * (item.quantity : ℚ)) acc := by
  induction items with
  | nil =>
    intro acc hacc _
    simpa using hacc
  | cons item rest ih =>
    intro acc hacc h
    have hitem := h item (List.mem_cons_self item rest)
    have hq : (0 : ℚ) ≤ (item.quantity : ℚ) := by
      exact_mod_cast le_of_lt hitem.1
    have hstep : 0 ≤ acc + item.product.price * (item.quantity : ℚ) :=
      add_nonneg hacc (mul_nonneg hitem.2 hq)
    simpa using ih _ hstep (fun x hx => h x (List.mem_cons_of_mem _ hx))

/-- A cart of positive quantities and non-negative prices has a
non-negative total. -/
theorem cartTotal_nonneg (items : List CartItem)
    (h : ∀ item ∈ items, 0 < item.quantity ∧ 0 ≤ item.product.price) :
    0 ≤ cartTotal items :=
  foldl_total_nonneg items 0 le_rfl h

/-- A one-item stock pass against insufficient snapshot stock: the schema's
`CHECK (stock_quantity >= 0)` rejects the write and the loop fails with the
store unchanged. -/
theorem stockLoop_single_insufficient (i : CartItem) (s : Store)
    (hlt : i.product.stock_quantity - i.quantity < 0)
    (hany : s.products.any (fun p => p.id == i.product_id) = true) :
    stockLoop noFail.stockFail [i] 0 s = (false, s) := by
  have hcond : (s.products.any (fun p => p.id == i.product_id)) = true ∧
      i.product.stock_quantity - i.quantity < 0 := ⟨hany, hlt⟩
  simp only [stockLoop, noFail]
  rw [if_pos hcond]
  simp

/-- A checkout of one cart entry whose quantity exceeds the snapshot stock:
the Order row and its Order Line are persisted before the stock write is
rejected, the run reports failure, the stock and the cart (store rows and
local state) are unchanged. -/
theorem checkout_single_insufficient (uid : String) (st : Store)
    (i : CartItem) (form : CheckoutForm)
    (hq : 0 < i.quantity) (hp : 0 ≤ i.product.price)
    (hany : st.products.any (fun p => p.id == i.product_id) = true)
    (hlt : i.product.stock_quantity - i.quantity < 0) :
    handleCheckout (some uid) noFail st [i] form =
      ⟨⟨st.products, st.cart_items,
        st.orders ++ [⟨st.orders.length, uid, cartTotal [i],
          ⟨form.fullName, form.address, form.city, form.postalCode, form.country⟩,
          OrderStatus.confirmed, PaymentStatus.paid⟩],
        st.order_items ++
          [⟨st.orders.length, i.product_id, i.quantity, i.product.price⟩]⟩,
        [i], false⟩ := by
  have hok : ∀ item ∈ [i], 0 < item.quantity ∧ 0 ≤ item.product.price := by
    intro item hm
    simp only [List.mem_singleton] at hm
    subst hm
    exact ⟨hq, hp⟩
  have hc1 : ¬ (noFail.orderFail = true ∨ cartTotal [i] < 0) := by
    rintro (h | h)
    · exact absurd h (by decide)
    · exact absurd h (not_lt.mpr (cartTotal_nonneg _ hok))
  have hc2 : ¬ (noFail.itemsFail = true ∨
      ∃ item ∈ [i], item.quantity ≤ 0 ∨ item.product.price < 0) := by
    rintro (h | ⟨item, hm, hbad⟩)
    · exact absurd h (by decide)
    · rcases hok item hm with ⟨hqi, hpi⟩
      rcases hbad with h | h
      · omega
      · exact absurd h (not_lt.mpr hpi)
  simp only [handleCheckout]
  rw [if_neg hc1, if_neg hc2]
  split
  · next stErr heq =>
      rw [stockLoop_single_insufficient i] at heq
      · simp only [Prod.mk.injEq] at heq
        rcases heq with ⟨-, rfl⟩
        rfl
      · exact hlt
      · exact hany
  · next st3 heq =>
      rw [stockLoop_single_insufficient i] at heq
      · simp at heq
      · exact hlt
      · exact hany

/-- C1: a checkout of a cart holding two distinct products with quantities
2 and 1, in which every store call succeeds (no injected failure; stock
covers the purchase; snapshots agree with the store), appends exactly one
Order row whose total is the cart total, appends exactly the two Order
Lines whose summed price×quantity equals that total, decrements each
referenced product's stored stock by its purchased quantity, and leaves
both the store cart rows of the identity and the local cart empty. -/
theorem checkout_two_item_success (uid : String) (st : Store)
    (i1 i2 : CartItem) (form : CheckoutForm)
    (hd : i1.product_id ≠ i2.product_id)
    (hq1 : i1.quantity = 2) (hq2 : i2.quantity = 1)
    (hp1 : 0 ≤ i1.product.price) (hp2 : 0 ≤ i2.product.price)
    (hs1 : st.stockOf i1.product_id = some i1.product.stock_quantity)
    (hs2 : st.stockOf i2.product_id = some i2.product.stock_quantity)
    (hst1 : i1.quantity ≤ i1.product.stock_quantity)
    (hst2 : i2.quantity ≤ i2.product.stock_quantity) :
    (handleCheckout (some uid) noFail st [i1, i2] form).ok = true ∧
    (handleCheckout (some uid) noFail st [i1, i2] form).store.orders =
      st.orders ++ [⟨st.orders.length, uid, cartTotal [i1, i2],
        ⟨form.fullName, form.address, form.city, form.postalCode, form.country⟩,
        OrderStatus.confirmed, PaymentStatus.paid⟩] ∧
    (handleCheckout (some uid) noFail st [i1, i2] form).store.order_items =
      st.order_items ++
        [⟨st.orders.length, i1.product_id, i1.quantity, i1.product.price⟩,
         ⟨st.orders.length, i2.product_id, i2.quantity, i2.product.price⟩] ∧
    lineSum [⟨st.orders.length, i1.product_id, i1.quantity, i1.product.price⟩,
             ⟨st.orders.length, i2.product_id, i2.quantity, i2.product.price⟩] =
      cartTotal [i1, i2] ∧
    (handleCheckout (some uid) noFail st [i1, i2] form).store.stockOf i1.product_id =
      some (i1.product.stock_quantity - i1.quantity) ∧
    (handleCheckout (some uid) noFail st [i1, i2] form).store.stockOf i2.product_id =
      some (i2.product.stock_quantity - i2.quantity) ∧
    (handleCheckout (some uid) noFail st [i1, i2] form).store.cart_items.filter
      (fun r => r.user_id == uid) = [] ∧
    (handleCheckout (some uid) noFail st [i1, i2] form).cartItems = [] := by
  have hok : ∀ item ∈ [i1, i2], 0 < item.quantity ∧ 0 ≤ item.product.price := by
    intro item hm
    simp only [List.mem_cons, List.not_mem_nil, or_false] at hm
    rcases hm with rfl | rfl
    · exact ⟨by omega, hp1⟩
    · exact ⟨by omega, hp2⟩
  have hc1 : ¬ (noFail.orderFail = true ∨ cartTotal [i1, i2] < 0) := by
    rintro (h | h)
    · exact absurd h (by decide)
    · exact absurd h (not_lt.mpr (cartTotal_nonneg _ hok))
  have hc2 : ¬ (noFail.itemsFail = true ∨
      ∃ item ∈ [i1, i2], item.quantity ≤ 0 ∨ item.product.price < 0) := by
    rintro (h | ⟨item, hm, hbad⟩)
    · exact absurd h (by decide)
    · rcases hok item hm with ⟨hq, hp⟩
      rcases hbad with h | h
      · omega
      · exact absurd h (not_lt.mpr hp)
  have hloop : ∀ s : Store, stockLoop noFail.stockFail [i1, i2] 0 s =
      (true, { s with products := (setStockList
        (setStockList s.products i1.product_id
          (i1.product.stock_quantity - i1.quantity)) i2.product_id
          (i2.product.stock_quantity - i2.quantity)) }) := by
    intro s
    have hv1 : ¬ ((s.products.any (fun p => p.id == i1.product_id)) = true ∧
        i1.product.stock_quantity - i1.quantity < 0) := by
      rintro ⟨-, h⟩
      omega
    have hv2 : ¬ (((setStockList s.products i1.product_id
        (i1.product.stock_quantity - i1.quantity)).any
          (fun p => p.id == i2.product_id)) = true ∧
        i2.product.stock_quantity - i2.quantity < 0) := by
      rintro ⟨-, h⟩
      omega
    simp only [stockLoop, noFail]
    rw [if_neg hv1, if_neg hv2]
    simp
  have hrun : handleCheckout (some uid) noFail st [i1, i2] form =
      ⟨⟨(setStockList (setStockList st.products i1.product_id
          (i1.product.stock_quantity - i1.quantity)) i2.product_id
          (i2.product.stock_quantity - i2.quantity)),
        st.cart_items.filter (fun r => !(r.user_id == uid)),
        st.orders ++ [⟨st.orders.length, uid, cartTotal [i1, i2],
          ⟨form.fullName, form.address, form.city, form.postalCode, form.country⟩,
          OrderStatus.confirmed, PaymentStatus.paid⟩],
        st.order_items ++
          [⟨st.orders.length, i1.product_id, i1.quantity, i1.product.price⟩,
           ⟨st.orders.length, i2.product_id, i2.quantity, i2.product.price⟩]⟩,
        [], true⟩ := by
    simp only [handleCheckout]
    rw [if_neg hc1, if_neg hc2]
    rw [hloop]
    simp only [clearCart, noFail]
    simp
  rw [hrun]
  refine ⟨rfl, rfl, rfl, rfl, ?_, ?_, ?_, rfl⟩
  · show ((setStockList (setStockList st.products i1.product_id
        (i1.product.stock_quantity - i1.quantity)) i2.product_id
        (i2.product.stock_quantity - i2.quantity)).find?
          (fun p => p.id == i1.product_id)).map Product.stock_quantity =
      some (i1.product.stock_quantity - i1.quantity)
    rw [stock_after_set_ne _ _ _ _ hd, stock_after_set_self]
    rcases Option.map_eq_some'.mp hs1 with ⟨p, hp, -⟩
    rw [show st.findProduct i1.product_id =
      st.products.find? (fun p => p.id == i1.product_id) from rfl] at hp
    rw [hp]
    rfl
  · show ((setStockList (setStockList st.products i1.product_id
        (i1.product.stock_quantity - i1.quantity)) i2.product_id
        (i2.product.stock_quantity - i2.quantity)).find?
          (fun p => p.id == i2.product_id)).map Product.stock_quantity =
      some (i2.product.stock_quantity - i2.quantity)
    rw [stock_after_set_self]
    have hinner := stock_after_set_ne st.products i1.product_id i2.product_id
      (i1.product.stock_quantity - i1.quantity) (Ne.symm hd)
    have hs2b : (st.products.find? (fun p => p.id == i2.product_id)).map
        Product.stock_quantity = some i2.product.stock_quantity := hs2
    rw [hs2b] at hinner
    rcases Option.map_eq_some'.mp hinner with ⟨p, hp, -⟩
    rw [hp]
    rfl
  · rw [List.filter_filter]
    simp

/-- C1 witness: the sample two-product cart (quantities 2 and 1, prices 3
and 7, stocks 5 and 4) checked out against the sample store. -/
theorem checkout_two_item_success_witness :
    (sampleI1.product_id ≠ sampleI2.product_id ∧
     sampleI1.quantity = 2 ∧ sampleI2.quantity = 1 ∧
     0 ≤ sampleI1.product.price ∧ 0 ≤ sampleI2.product.price ∧
     sampleStore.stockOf sampleI1.product_id = some sampleI1.product.stock_quantity ∧
     sampleStore.stockOf sampleI2.product_id = some sampleI2.product.stock_quantity ∧
     sampleI1.quantity ≤ sampleI1.product.stock_quantity ∧
     sampleI2.quantity ≤ sampleI2.product.stock_quantity) ∧
    ((handleCheckout (some "u1") noFail sampleStore [sampleI1, sampleI2] sampleForm).ok = true ∧
     (handleCheckout (some "u1") noFail sampleStore [sampleI1, sampleI2] sampleForm).store.orders =
       sampleStore.orders ++ [⟨sampleStore.orders.length, "u1", cartTotal [sampleI1, sampleI2],
         ⟨sampleForm.fullName, sampleForm.address, sampleForm.city, sampleForm.postalCode,
          sampleForm.country⟩, OrderStatus.confirmed, PaymentStatus.paid⟩] ∧
     (handleCheckout (some "u1") noFail sampleStore [sampleI1, sampleI2] sampleForm).store.order_items =
       sampleStore.order_items ++
         [⟨sampleStore.orders.length, sampleI1.product_id, sampleI1.quantity, sampleI1.product.price⟩,
          ⟨sampleStore.orders.length, sampleI2.product_id, sampleI2.quantity, sampleI2.product.price⟩] ∧
     lineSum [⟨sampleStore.orders.length, sampleI1.product_id, sampleI1.quantity, sampleI1.product.price⟩,
              ⟨sampleStore.orders.length, sampleI2.product_id, sampleI2.quantity, sampleI2.product.price⟩] =
       cartTotal [sampleI1, sampleI2] ∧
     (handleCheckout (some "u1") noFail sampleStore [sampleI1, sampleI2] sampleForm).store.stockOf
       sampleI1.product_id = some (sampleI1.product.stock_quantity - sampleI1.quantity) ∧
     (handleCheckout (some "u1") noFail sampleStore [sampleI1, sampleI2] sampleForm).store.stockOf
       sampleI2.product_id = some (sampleI2.product.stock_quantity - sampleI2.quantity) ∧
     (handleCheckout (some "u1") noFail sampleStore [sampleI1, sampleI2] sampleForm).store.cart_items.filter
       (fun r => r.user_id == "u1") = [] ∧
     (handleCheckout (some "u1") noFail sampleStore [sampleI1, sampleI2] sampleForm).cartItems = []) :=
  ⟨⟨by decide, by decide, by decide, by decide, by decide, by decide, by decide,
    by decide, by decide⟩,
   checkout_two_item_success "u1" sampleStore sampleI1 sampleI2 sampleForm
     (by decide) (by decide) (by decide) (by decide) (by decide) (by decide)
     (by decide) (by decide) (by decide)⟩

/-- C2: evaluation at the failing input — a cart entry of quantity 2
against a product with stock 1. The client has no `stock ≥ quantity`
guard: the checkout persists the Order row and its Order Line before the
stock write, which only the schema's `CHECK (stock_quantity >= 0)` then
rejects; the run ends in `CheckoutFailed` with the order retained and the
stock unchanged. -/
theorem checkout_insufficient_stock_eval :
    lowStockItem.quantity = 2 ∧
    lowStockStore.stockOf lowStockItem.product_id = some 1 ∧
    handleCheckout (some "u1") noFail lowStockStore [lowStockItem] sampleForm =
      ⟨⟨lowStockStore.products, lowStockStore.cart_items,
        [⟨0, "u1", cartTotal [lowStockItem],
          ⟨sampleForm.fullName, sampleForm.address, sampleForm.city,
           sampleForm.postalCode, sampleForm.country⟩,
          OrderStatus.confirmed, PaymentStatus.paid⟩],
        [⟨0, "q1", 2, 5⟩]⟩, [lowStockItem], false⟩ :=
  ⟨by decide, by decide,
   checkout_single_insufficient "u1" lowStockStore lowStockItem sampleForm
     (by decide) (by decide) (by decide) (by decide)⟩

/-- C3 counterexample: a checkout attempted with an authenticated identity
and an empty cart is not rejected — an Order row is created (the store's
orders table grows from zero rows to one), contradicting "no Order row is
created and no store write of any kind is issued". -/
theorem checkout_empty_cart_creates_order :
    (handleCheckout (some "u9") noFail sampleStore [] sampleForm).store.orders.length = 1 ∧
    sampleStore.orders.length = 0 :=
  ⟨by decide, by decide⟩

/-- C3 (amended): `handleCheckout` guards only on a missing identity. With
an identity present and an empty cart the checkout is not rejected: it
inserts exactly one Order row with total_amount 0 (status confirmed,
payment paid), inserts no Order Lines, touches no product stock, and still
issues the cart-clearing delete. Only the unauthenticated case returns
before any write. -/
theorem checkout_empty_cart_not_rejected (uid : String) (st : Store)
    (form : CheckoutForm) :
    handleCheckout (some uid) noFail st [] form =
      ⟨⟨st.products, st.cart_items.filter (fun r => !(r.user_id == uid)),
        st.orders ++ [⟨st.orders.length, uid, 0,
          ⟨form.fullName, form.address, form.city, form.postalCode, form.country⟩,
          OrderStatus.confirmed, PaymentStatus.paid⟩],
        st.order_items⟩, [], true⟩ ∧
    handleCheckout none noFail st [] form = ⟨st, [], false⟩ := by
  constructor
  · have hc1 : ¬ (noFail.orderFail = true ∨ cartTotal [] < 0) := by
      rintro (h | h)
      · exact absurd h (by decide)
      · rw [show cartTotal [] = 0 from rfl] at h
        exact lt_irrefl 0 h
    have hc2 : ¬ (noFail.itemsFail = true ∨
        ∃ item ∈ ([] : List CartItem), item.quantity ≤ 0 ∨ item.product.price < 0) := by
      rintro (h | ⟨item, hm, -⟩)
      · exact absurd h (by decide)
      · exact absurd hm (List.not_mem_nil item)
    simp only [handleCheckout]
    rw [if_neg hc1, if_neg hc2]
    simp only [stockLoop, clearCart, noFail]
    simp [List.append_nil, cartTotal]
  · rfl

/-- C5: the Order Lines inserted by a checkout whose first two steps
succeed are exactly one line per cart entry carrying the snapshot price
the client holds at that moment and the entry's quantity — and they stay
in the orders ledger untouched by the later steps whatever their outcome;
moreover a later catalog price change (an `update` of `products.price`)
leaves every stored Order Line, hence its price, unchanged. -/
theorem order_lines_snapshot_price (uid : String) (fs : FailSpec)
    (st : Store) (cartItems : List CartItem) (form : CheckoutForm)
    (h1 : fs.orderFail = false) (h2 : fs.itemsFail = false)
    (hok : ∀ item ∈ cartItems, 0 < item.quantity ∧ 0 ≤ item.product.price) :
    (handleCheckout (some uid) fs st cartItems form).store.order_items =
      st.order_items ++ cartItems.map (fun item =>
        ⟨st.orders.length, item.product_id, item.quantity, item.product.price⟩) ∧
    ∀ (s : Store) (pid : String) (newPrice : ℚ),
      (updateProductPrice s pid newPrice).order_items = s.order_items := by
  constructor
  · have hc1 : ¬ (fs.orderFail = true ∨ cartTotal cartItems < 0) := by
      rintro (h | h)
      · rw [h1] at h
        exact absurd h (by decide)
      · exact absurd h (not_lt.mpr (cartTotal_nonneg _ hok))
    have hc2 : ¬ (fs.itemsFail = true ∨
        ∃ item ∈ cartItems, item.quantity ≤ 0 ∨ item.product.price < 0) := by
      rintro (h | ⟨item, hm, hbad⟩)
      · rw [h2] at h
        exact absurd h (by decide)
      · rcases hok item hm with ⟨hqi, hpi⟩
        rcases hbad with h | h
        · omega
        · exact absurd h (not_lt.mpr hpi)
    simp only [handleCheckout]
    rw [if_neg hc1, if_neg hc2]
    split
    · next stErr heq =>
        have h5 := congrArg (fun x : Bool × Store => x.2.order_items) heq
        dsimp only at h5
        rw [stockLoop_order_items] at h5
        exact h5.symm
    · next st3 heq =>
        have h5 := congrArg (fun x : Bool × Store => x.2.order_items) heq
        dsimp only at h5
        rw [stockLoop_order_items] at h5
        rw [clearCart_order_items]
        exact h5.symm
  · intro s pid newPrice
    rfl

/-- C5 witness: the sample cart at the sample store under a run whose
stock step is made to fail (showing the inserted lines survive later-step
failure), plus the price-immutability clause. -/
theorem order_lines_snapshot_price_witness :
    ((⟨false, false, fun _ => true, false⟩ : FailSpec).orderFail = false ∧
     (⟨false, false, fun _ => true, false⟩ : FailSpec).itemsFail = false ∧
     (∀ item ∈ [sampleI1, sampleI2], 0 < item.quantity ∧ 0 ≤ item.product.price)) ∧
    ((handleCheckout (some "u1") ⟨false, false, fun _ => true, false⟩ sampleStore
        [sampleI1, sampleI2] sampleForm).store.order_items =
      sampleStore.order_items ++ [sampleI1, sampleI2].map (fun item =>
        ⟨sampleStore.orders.length, item.product_id, item.quantity, item.product.price⟩) ∧
     ∀ (s : Store) (pid : String) (newPrice : ℚ),
       (updateProductPrice s pid newPrice).order_items = s.order_items) :=
  ⟨⟨by decide, by decide, by decide⟩,
   order_lines_snapshot_price "u1" ⟨false, false, fun _ => true, false⟩
     sampleStore [sampleI1, sampleI2] sampleForm rfl rfl (by decide)⟩

/-- C6: when step 1 (the `orders` insert) is rejected by the store, nothing
at all is persisted (the store is returned unchanged, cart rows included),
the run reports failure (`CheckoutFailed` toast, no success), and the local
cart is retained unchanged. -/
theorem checkout_step1_failure_no_writes (uid : String) (b c : Bool)
    (g : ℕ → Bool) (st : Store) (cartItems : List CartItem)
    (form : CheckoutForm) :
    handleCheckout (some uid) ⟨true, b, g, c⟩ st cartItems form =
      ⟨st, cartItems, false⟩ := by
  simp [handleCheckout]

end ShopHub
